import Mathlib

/-
Verification development for the JSON-path scalar extraction engine of
be/src/exprs/json_functions.h (Apache Doris backend).

Only the header is present in the sources; the implementation of
get_parsed_paths / get_json_object / the typed entry points lives in the
missing json_functions.cpp, so those operations are modelled from the
specification (each such definition's doc comment says so).  The struct
JsonPath and its debug_string method are translated directly from the
header.
-/

namespace Doris

/-- A JSON number as seen by the extraction core: either a number that is
representable as an integer, or a non-integral number kept as its source
literal (its exact floating value is irrelevant to the properties below). -/
inductive JNumber where
  | int (i : Int)
  | dbl (lit : String)
deriving DecidableEq, Repr

/-- A parsed JSON document node (the rapidjson DOM, modelled as a tree). -/
inductive JsonValue where
  | jnull
  | jbool (b : Bool)
  | jnum (n : JNumber)
  | jstr (s : String)
  | jarr (elems : List JsonValue)
  | jobj (members : List (String × JsonValue))

/-- Modelled from the spec: the external JSON text parser (rapidjson) is a
capability that parses bytes into a tree of typed nodes and reports
malformed input.  Whitespace skipping helper. -/
def skipWs : List Char → List Char
  | c :: cs => if c = ' ' ∨ c = '\t' ∨ c = '\n' ∨ c = '\r' then skipWs cs else c :: cs
  | [] => []

/-- Longest prefix of decimal digits, and the rest. -/
def spanDigits : List Char → List Char × List Char
  | [] => ([], [])
  | c :: cs =>
    if c.isDigit then
      let p := spanDigits cs
      (c :: p.1, p.2)
    else ([], c :: cs)

/-- Decimal value of a digit string. -/
def digitsVal (ds : List Char) : Nat :=
  ds.foldl (fun acc c => acc * 10 + (c.toNat - 48)) 0

/-- Modelled from the spec: number tokens of the external JSON parser.
An optional minus sign and digits; a token with a fractional part is a
non-integral number (kept as its literal); exponent forms are outside the
modelled dialect. -/
def parseNumber (cs : List Char) : Option (JsonValue × List Char) :=
  let p0 := match cs with
    | '-' :: rest => (true, rest)
    | _ => (false, cs)
  let p1 := spanDigits p0.2
  if p1.1.isEmpty then none
  else
    let ival : Int := if p0.1 then -(Int.ofNat (digitsVal p1.1)) else Int.ofNat (digitsVal p1.1)
    match p1.2 with
    | '.' :: rest =>
      let p2 := spanDigits rest
      if p2.1.isEmpty then none
      else
        some (.jnum (.dbl (String.mk ((if p0.1 then ['-'] else []) ++ p1.1 ++ '.' :: p2.1))), p2.2)
    | rest => some (.jnum (.int ival), rest)

/-- Modelled from the spec: string tokens of the external JSON parser.
Reads up to the closing quote; a backslash-escaped character stands for
itself (enough for the quote and backslash escapes). -/
def parseStringBody : List Char → Option (String × List Char)
  | [] => none
  | '"' :: rest => some ("", rest)
  | '\\' :: c :: rest =>
    (parseStringBody rest).map (fun p => (String.mk (c :: p.1.data), p.2))
  | c :: rest =>
    (parseStringBody rest).map (fun p => (String.mk (c :: p.1.data), p.2))

mutual

/-- Modelled from the spec: value grammar of the external JSON parser
(null, booleans, numbers, strings, arrays, objects).  Fuel bounds the
recursion; the top-level wrapper supplies enough for any input. -/
def parseValue : Nat → List Char → Option (JsonValue × List Char)
  | 0, _ => none
  | fuel + 1, cs =>
    match skipWs cs with
    | 'n' :: 'u' :: 'l' :: 'l' :: rest => some (.jnull, rest)
    | 't' :: 'r' :: 'u' :: 'e' :: rest => some (.jbool true, rest)
    | 'f' :: 'a' :: 'l' :: 's' :: 'e' :: rest => some (.jbool false, rest)
    | '"' :: rest => (parseStringBody rest).map (fun p => (.jstr p.1, p.2))
    | '[' :: rest =>
      (match skipWs rest with
       | ']' :: rest2 => some (.jarr [], rest2)
       | rest2 => (parseElems fuel rest2).map (fun p => (.jarr p.1, p.2)))
    | '\x7b' :: rest =>
      (match skipWs rest with
       | '\x7d' :: rest2 => some (.jobj [], rest2)
       | rest2 => (parseMembers fuel rest2).map (fun p => (.jobj p.1, p.2)))
    | cs2 => parseNumber cs2

/-- Modelled from the spec: comma-separated array elements up to the
closing bracket. -/
def parseElems : Nat → List Char → Option (List JsonValue × List Char)
  | 0, _ => none
  | fuel + 1, cs => do
    let p ← parseValue fuel cs
    match skipWs p.2 with
    | ',' :: rest2 => do
      let q ← parseElems fuel rest2
      pure (p.1 :: q.1, q.2)
    | ']' :: rest2 => pure ([p.1], rest2)
    | _ => none

/-- Modelled from the spec: comma-separated object members (string key,
colon, value) up to the closing brace. -/
def parseMembers : Nat → List Char → Option (List (String × JsonValue) × List Char)
  | 0, _ => none
  | fuel + 1, cs =>
    match skipWs cs with
    | '"' :: rest => do
      let k ← parseStringBody rest
      match skipWs k.2 with
      | ':' :: rest2 => do
        let v ← parseValue fuel rest2
        match skipWs v.2 with
        | ',' :: rest4 => do
          let ms ← parseMembers fuel rest4
          pure ((k.1, v.1) :: ms.1, ms.2)
        | '\x7d' :: rest4 => pure ([(k.1, v.1)], rest4)
        | _ => none
      | _ => none
    | _ => none

end

/-- Modelled from the spec: parse a JSON text into a document tree, or
report malformed input as none.  Trailing content (other than whitespace)
makes the text malformed. -/
def parseJson (s : String) : Option JsonValue :=
  match parseValue (2 * s.length + 8) s.data with
  | some p => if skipWs p.2 = [] then some p.1 else none
  | none => none

/-- One step of a parsed path, translated from struct JsonPath of
json_functions.h: key of a json object, array index (-1 means not set),
and is_valid (true if the path is successfully parsed). -/
structure JsonPath where
  key : String
  idx : Int
  is_valid : Bool
deriving DecidableEq, Repr

/-- A std::stringstream modelled as an accumulated string; streaming a
string appends it. -/
def ss_str (acc s : String) : String := acc ++ s

/-- Streaming an int renders it in decimal (with a leading minus sign for
negative values), as operator<< does. -/
def ss_int (acc : String) (i : Int) : String := acc ++ toString i

/-- Streaming a bool renders 1 for true and 0 for false (default stream
formatting, no boolalpha). -/
def ss_bool (acc : String) (b : Bool) : String := acc ++ (if b then "1" else "0")

/-- Translated from JsonPath::debug_string in json_functions.h:
ss << "key: " << key << ", idx: " << idx << ", valid: " << is_valid. -/
def JsonPath.debug_string (p : JsonPath) : String :=
  ss_bool (ss_str (ss_int (ss_str (ss_str (ss_str "" "key: ") p.key) ", idx: ") p.idx) ", valid: ") p.is_valid

/-- Identifier characters of an object-key step: everything up to the next
step delimiter. -/
def parseIdent : List Char → List Char × List Char
  | [] => ([], [])
  | c :: cs =>
    if c = '.' ∨ c = '[' then ([], c :: cs)
    else
      let p := parseIdent cs
      (c :: p.1, p.2)

/-- Bracket content up to the closing bracket; none when the bracket is
unterminated. -/
def readBracket : List Char → Option (List Char × List Char)
  | [] => none
  | c :: cs =>
    if c = ']' then some ([], cs)
    else (readBracket cs).map (fun p => (c :: p.1, p.2))

/-- Modelled from the spec (the body of JsonFunctions::get_parsed_paths is
in the missing json_functions.cpp): scan the steps after the root marker.
A dot introduces an object-key step (an empty identifier gives an invalid
segment); a bracket introduces an array-index step (unterminated bracket,
empty, negative or otherwise non-numeric content gives an invalid segment
with idx = -1); any other character gives an invalid segment.  The parser
never fails hard: it always returns a segment list. -/
def parseSteps : Nat → List Char → List JsonPath
  | 0, _ => []
  | _ + 1, [] => []
  | fuel + 1, c :: cs =>
    if c = '.' then
      let p := parseIdent cs
      if p.1.isEmpty then
        JsonPath.mk "" (-1) false :: parseSteps fuel p.2
      else
        JsonPath.mk (String.mk p.1) (-1) true :: parseSteps fuel p.2
    else if c = '[' then
      match readBracket cs with
      | none => [JsonPath.mk "" (-1) false]
      | some p =>
        if ¬p.1.isEmpty ∧ p.1.all Char.isDigit then
          JsonPath.mk "" (Int.ofNat (digitsVal p.1)) true :: parseSteps fuel p.2
        else
          JsonPath.mk "" (-1) false :: parseSteps fuel p.2
    else
      JsonPath.mk "" (-1) false :: parseSteps fuel cs

/-- Modelled from the spec (JsonFunctions::get_parsed_paths declaration in
json_functions.h, body missing): the expression must begin with the root
marker; an empty expression or a missing root marker produces a segment
marked invalid.  The returned steps do not include the root marker. -/
def get_parsed_paths (path_string : String) : List JsonPath :=
  match path_string.data with
  | [] => [JsonPath.mk "" (-1) false]
  | c :: rest =>
    if c = '$' then parseSteps rest.length rest
    else [JsonPath.mk "" (-1) false]

/-- First-occurrence-wins lookup of an object member by exact key match. -/
def lookupKey (k : String) : List (String × JsonValue) → Option JsonValue
  | [] => none
  | m :: rest => if m.1 = k then some m.2 else lookupKey k rest

/-- Modelled from the spec: the document navigator.  Walk the segments in
order; an invalid segment halts with not-found; an array-index step
requires an array node and an index within bounds; an object-key step
requires an object node holding the key; exhausting the segments yields
the current node. -/
def navigate : JsonValue → List JsonPath → Option JsonValue
  | doc, [] => some doc
  | doc, seg :: rest =>
    if seg.is_valid = false then none
    else if 0 ≤ seg.idx then
      match doc with
      | .jarr elems =>
        match elems.get? seg.idx.toNat with
        | some child => navigate child rest
        | none => none
      | _ => none
    else
      match doc with
      | .jobj members =>
        match lookupKey seg.key members with
        | some child => navigate child rest
        | none => none
      | _ => none

/-- Modelled from the spec (JsonFunctions::get_json_object declaration in
json_functions.h, body missing): obtain the parsed path from the
scope-local cache when one was prepared, otherwise parse it now; parse the
JSON text (malformed input yields none); then navigate. -/
def get_json_object_with_cache (cache : Option (List JsonPath))
    (json_string path_string : String) : Option JsonValue :=
  let parsed_paths := match cache with
    | some pp => pp
    | none => get_parsed_paths path_string
  match parseJson json_string with
  | none => none
  | some document => navigate document parsed_paths

/-- Modelled from the spec: the fallback entry with no prepared cache,
re-parsing the path expression on every call. -/
def get_json_object (json_string path_string : String) : Option JsonValue :=
  get_json_object_with_cache none json_string path_string

/-- Modelled from the spec (JsonFunctions::json_path_prepare declaration,
body missing): parse the constant path expression once and store it in the
scope-local cache. -/
def json_path_prepare (path_string : String) : Option (List JsonPath) :=
  some (get_parsed_paths path_string)

/-- Modelled from the spec: integer coercion succeeds only if the node is
a JSON number representable as an integer. -/
def coerce_int : JsonValue → Option Int
  | .jnum (.int i) => some i
  | _ => none

/-- Modelled from the spec: double coercion succeeds if the node is any
JSON number. -/
def coerce_double : JsonValue → Option JNumber
  | .jnum n => some n
  | _ => none

/-- Modelled from the spec: string coercion succeeds only if the node is a
JSON string (no stringification of numbers or booleans). -/
def coerce_string : JsonValue → Option String
  | .jstr s => some s
  | _ => none

/-- Modelled from the spec (JsonFunctions::get_json_int declaration, body
missing): extract and coerce to integer; none is the is-null result. -/
def get_json_int (json_str path : String) : Option Int :=
  (get_json_object json_str path).bind coerce_int

/-- Modelled from the spec (JsonFunctions::get_json_string declaration,
body missing). -/
def get_json_string (json_str path : String) : Option String :=
  (get_json_object json_str path).bind coerce_string

/-- Modelled from the spec (JsonFunctions::get_json_double declaration,
body missing). -/
def get_json_double (json_str path : String) : Option JNumber :=
  (get_json_object json_str path).bind coerce_double

/-- Modelled from the spec: one row-level call observed together with the
scope cache it runs against; cache hits are read-only, so the call returns
the cache unchanged. -/
def get_json_int_call (cache : Option (List JsonPath)) (json_str path : String) :
    Option Int × Option (List JsonPath) :=
  ((get_json_object_with_cache cache json_str path).bind coerce_int, cache)

/-- Modelled from the spec: the string entry point observed together with
the scope cache it runs against; cache hits are read-only. -/
def get_json_string_call (cache : Option (List JsonPath)) (json_str path : String) :
    Option String × Option (List JsonPath) :=
  ((get_json_object_with_cache cache json_str path).bind coerce_string, cache)

/-- Modelled from the spec: the double entry point observed together with
the scope cache it runs against; cache hits are read-only. -/
def get_json_double_call (cache : Option (List JsonPath)) (json_str path : String) :
    Option JNumber × Option (List JsonPath) :=
  ((get_json_object_with_cache cache json_str path).bind coerce_double, cache)

/-- Helper: a successful positional lookup implies the index is in range. -/
theorem get_some_lt {α : Type} (l : List α) (n : Nat) (a : α)
    (h : l.get? n = some a) : n < l.length := by
  by_contra hc
  push_neg at hc
  rw [List.get?_eq_none.mpr hc] at h
  cases h

/-- Helper: unfolding of the per-call extraction pipeline. -/
theorem get_json_object_eq (j p : String) :
    get_json_object j p =
      match parseJson j with
      | none => none
      | some document => navigate document (get_parsed_paths p) := rfl

/-- Helper: a path containing an invalid segment navigates to none on every
document. -/
theorem navigate_invalid (pp : List JsonPath) :
    ∀ doc : JsonValue, (∃ seg ∈ pp, seg.is_valid = false) → navigate doc pp = none := by
  induction pp with
  | nil =>
    intro doc h
    rcases h with ⟨seg, hm, _⟩
    cases hm
  | cons seg rest ih =>
    intro doc h
    by_cases hv : seg.is_valid = false
    · simp [navigate, hv]
    · have hrest : ∃ s ∈ rest, s.is_valid = false := by
        rcases h with ⟨s, hm, hs⟩
        rcases List.mem_cons.mp hm with h1 | h2
        · exact absurd (h1 ▸ hs) hv
        · exact ⟨s, h2, hs⟩
      simp only [navigate]
      rw [if_neg hv]
      by_cases hidx : 0 ≤ seg.idx
      · rw [if_pos hidx]
        cases doc with
        | jarr elems =>
          cases hg : elems.get? seg.idx.toNat with
          | none => simp only [hg]
          | some child =>
            simp only [hg]
            exact ih child hrest
        | jnull => rfl
        | jbool b => rfl
        | jnum n => rfl
        | jstr s => rfl
        | jobj members => rfl
      · rw [if_neg hidx]
        cases doc with
        | jobj members =>
          cases hg : lookupKey seg.key members with
          | none => simp only [hg]
          | some child =>
            simp only [hg]
            exact ih child hrest
        | jnull => rfl
        | jbool b => rfl
        | jnum n => rfl
        | jstr s => rfl
        | jarr elems => rfl

/-- Helper: every segment produced by the step scanner is an object-key
step (index unset) or an array-index step (key empty). -/
theorem parseSteps_shape (fuel : Nat) :
    ∀ cs : List Char, ∀ seg ∈ parseSteps fuel cs, seg.key = "" ∨ seg.idx = -1 := by
  induction fuel with
  | zero =>
    intro cs seg h
    simp [parseSteps] at h
  | succ fuel ih =>
    intro cs seg h
    cases cs with
    | nil => simp [parseSteps] at h
    | cons c rest =>
      simp only [parseSteps] at h
      split at h
      · split at h
        · rcases List.mem_cons.mp h with h1 | h2
          · right; rw [h1]
          · exact ih _ seg h2
        · rcases List.mem_cons.mp h with h1 | h2
          · right; rw [h1]
          · exact ih _ seg h2
      · split at h
        · split at h
          · rcases List.mem_cons.mp h with h1 | h2
            · right; rw [h1]
            · cases h2
          · split at h
            · rcases List.mem_cons.mp h with h1 | h2
              · left; rw [h1]
              · exact ih _ seg h2
            · rcases List.mem_cons.mp h with h1 | h2
              · right; rw [h1]
              · exact ih _ seg h2
        · rcases List.mem_cons.mp h with h1 | h2
          · right; rw [h1]
          · exact ih _ seg h2

/-- C10: JsonPath::debug_string renders exactly "key: " ++ key ++
", idx: " ++ decimal idx ++ ", valid: " ++ (1 for true, 0 for false), and
the fields key, idx and is_valid are unchanged by the call (the method
only reads them). -/
theorem debug_string_format (k : String) (i : Int) (v : Bool) :
    (JsonPath.mk k i v).debug_string =
      "key: " ++ k ++ ", idx: " ++ toString i ++ ", valid: " ++ (if v then "1" else "0") ∧
    (JsonPath.mk k i v).key = k ∧ (JsonPath.mk k i v).idx = i ∧
    (JsonPath.mk k i v).is_valid = v :=
  ⟨rfl, rfl, rfl, rfl⟩

/-- C10 witness: the format at a concrete segment. -/
theorem debug_string_format_witness :
    (JsonPath.mk "a" (-1) true).debug_string = "key: a, idx: -1, valid: 1" := by
  have h := debug_string_format "a" (-1) true
  rw [h.1]
  rfl

/-- C9: for every fixed pair of arguments and every fixed target type
(integer, string, double), a row-level call against a cache leaves the
cache unchanged, and a second call against the resulting cache returns
the same result (same value, same is-null flag, both encoded in the
Option). -/
theorem extract_deterministic (cache : Option (List JsonPath)) (j p : String) :
    (get_json_int_call cache j p).2 = cache ∧
    (get_json_int_call (get_json_int_call cache j p).2 j p).1 =
      (get_json_int_call cache j p).1 ∧
    (get_json_string_call cache j p).2 = cache ∧
    (get_json_string_call (get_json_string_call cache j p).2 j p).1 =
      (get_json_string_call cache j p).1 ∧
    (get_json_double_call cache j p).2 = cache ∧
    (get_json_double_call (get_json_double_call cache j p).2 j p).1 =
      (get_json_double_call cache j p).1 :=
  ⟨rfl, rfl, rfl, rfl, rfl, rfl⟩

/-- C9 witness: determinism of all three entry points at a concrete
input. -/
theorem extract_deterministic_witness :
    (get_json_int_call none "\x7b\"a\":3\x7d" "$.a").2 = none ∧
    (get_json_int_call (get_json_int_call none "\x7b\"a\":3\x7d" "$.a").2 "\x7b\"a\":3\x7d" "$.a").1 =
      (get_json_int_call none "\x7b\"a\":3\x7d" "$.a").1 ∧
    (get_json_string_call none "\x7b\"a\":3\x7d" "$.a").2 = none ∧
    (get_json_string_call (get_json_string_call none "\x7b\"a\":3\x7d" "$.a").2 "\x7b\"a\":3\x7d" "$.a").1 =
      (get_json_string_call none "\x7b\"a\":3\x7d" "$.a").1 ∧
    (get_json_double_call none "\x7b\"a\":3\x7d" "$.a").2 = none ∧
    (get_json_double_call (get_json_double_call none "\x7b\"a\":3\x7d" "$.a").2 "\x7b\"a\":3\x7d" "$.a").1 =
      (get_json_double_call none "\x7b\"a\":3\x7d" "$.a").1 :=
  extract_deterministic none "\x7b\"a\":3\x7d" "$.a"

/-- C6: extraction with the path cached at prepare time equals extraction
that re-parses the same path expression on every call, for every JSON
input — both at the navigation level and for the integer entry point. -/
theorem path_cache_transparent (p j : String) :
    get_json_object_with_cache (json_path_prepare p) j p = get_json_object j p ∧
    (get_json_int_call (json_path_prepare p) j p).1 = get_json_int j p :=
  ⟨rfl, rfl⟩

/-- C6 witness: cache transparency at a concrete input. -/
theorem path_cache_transparent_witness :
    get_json_object_with_cache (json_path_prepare "$.a") "\x7b\"a\":3\x7d" "$.a" =
      get_json_object "\x7b\"a\":3\x7d" "$.a" ∧
    (get_json_int_call (json_path_prepare "$.a") "\x7b\"a\":3\x7d" "$.a").1 =
      get_json_int "\x7b\"a\":3\x7d" "$.a" :=
  path_cache_transparent "$.a" "\x7b\"a\":3\x7d"

/-- C8: the root-only path "$" parses to no steps, navigation over an
empty step list resolves to the document root, and hence extraction of
"$" from any well-formed document yields the root node. -/
theorem root_path_resolves_root :
    get_parsed_paths "$" = ([] : List JsonPath) ∧
    (∀ doc : JsonValue, navigate doc [] = some doc) ∧
    (∀ (j : String) (doc : JsonValue), parseJson j = some doc →
      get_json_object j "$" = some doc) := by
  refine ⟨rfl, fun doc => rfl, fun j doc h => ?_⟩
  rw [get_json_object_eq, h]
  rfl

/-- C8 witness: the root path at a concrete document. -/
theorem root_path_resolves_root_witness :
    get_json_object "\x7b\"a\":1\x7d" "$" =
      some (.jobj [("a", .jnum (.int 1))]) :=
  root_path_resolves_root.2.2 "\x7b\"a\":1\x7d" (.jobj [("a", .jnum (.int 1))]) rfl

/-- C4: path parsing is a total function (it returns a segment list for
every input string, never an exception), and each malformed form — empty
expression, missing root marker, unterminated bracket, non-numeric
bracket content, empty identifier, negative index, absent index — yields
a segment with valid = false, the index cases with idx = -1. -/
theorem path_parse_never_hard_fails :
    ((get_parsed_paths "").all (fun s => !s.is_valid)) = true ∧
    ((get_parsed_paths "a.b").all (fun s => !s.is_valid)) = true ∧
    ((get_parsed_paths "$.a[2").any (fun s => !s.is_valid && s.idx == -1)) = true ∧
    ((get_parsed_paths "$.a[x]").any (fun s => !s.is_valid && s.idx == -1)) = true ∧
    ((get_parsed_paths "$..b").any (fun s => !s.is_valid)) = true ∧
    ((get_parsed_paths "$.a[-1]").any (fun s => !s.is_valid && s.idx == -1)) = true ∧
    ((get_parsed_paths "$.a[]").any (fun s => !s.is_valid && s.idx == -1)) = true :=
  ⟨rfl, rfl, rfl, rfl, rfl, rfl, rfl⟩

/-- C1: when navigation succeeds and the resolved node's JSON type matches
the requested target type, extraction returns the exact value stored at
that location, for each of the integer, string and double entry points. -/
theorem json_extract_roundtrip :
    (∀ (j p : String) (doc : JsonValue) (i : Int), parseJson j = some doc →
      navigate doc (get_parsed_paths p) = some (.jnum (.int i)) →
      get_json_int j p = some i) ∧
    (∀ (j p : String) (doc : JsonValue) (s : String), parseJson j = some doc →
      navigate doc (get_parsed_paths p) = some (.jstr s) →
      get_json_string j p = some s) ∧
    (∀ (j p : String) (doc : JsonValue) (n : JNumber), parseJson j = some doc →
      navigate doc (get_parsed_paths p) = some (.jnum n) →
      get_json_double j p = some n) := by
  refine ⟨fun j p doc i hj hn => ?_, fun j p doc s hj hn => ?_, fun j p doc n hj hn => ?_⟩
  · unfold get_json_int
    rw [get_json_object_eq, hj]
    show (navigate doc (get_parsed_paths p)).bind coerce_int = some i
    rw [hn]
    rfl
  · unfold get_json_string
    rw [get_json_object_eq, hj]
    show (navigate doc (get_parsed_paths p)).bind coerce_string = some s
    rw [hn]
    rfl
  · unfold get_json_double
    rw [get_json_object_eq, hj]
    show (navigate doc (get_parsed_paths p)).bind coerce_double = some n
    rw [hn]
    rfl

/-- C1 witness: the two concrete scenarios named by the claim. -/
theorem json_extract_roundtrip_witness :
    get_json_int "\x7b\"a\":\x7b\"b\":3\x7d\x7d" "$.a.b" = some 3 ∧
    get_json_int "\x7b\"a\":[10,20,30]\x7d" "$.a[1]" = some 20 :=
  ⟨json_extract_roundtrip.1 "\x7b\"a\":\x7b\"b\":3\x7d\x7d" "$.a.b"
      (.jobj [("a", .jobj [("b", .jnum (.int 3))])]) 3 rfl rfl,
   json_extract_roundtrip.1 "\x7b\"a\":[10,20,30]\x7d" "$.a[1]"
      (.jobj [("a", .jarr [.jnum (.int 10), .jnum (.int 20), .jnum (.int 30)])]) 20 rfl rfl⟩

/-- C2: extraction yields the is-null result whenever the JSON text is
malformed, the path fails to parse (carries an invalid segment),
navigation cannot locate a node, or the located node's type disagrees
with the requested type; none of these raises a hard error (all entry
points are total functions into Option). -/
theorem json_extract_null_on_failure (j p : String) :
    (parseJson j = none →
      get_json_int j p = none ∧ get_json_string j p = none ∧ get_json_double j p = none) ∧
    ((∃ seg ∈ get_parsed_paths p, seg.is_valid = false) →
      get_json_int j p = none ∧ get_json_string j p = none ∧ get_json_double j p = none) ∧
    (∀ doc : JsonValue, parseJson j = some doc →
      navigate doc (get_parsed_paths p) = none →
      get_json_int j p = none ∧ get_json_string j p = none ∧ get_json_double j p = none) ∧
    (∀ (doc node : JsonValue), parseJson j = some doc →
      navigate doc (get_parsed_paths p) = some node → coerce_int node = none →
      get_json_int j p = none) ∧
    (∀ (doc node : JsonValue), parseJson j = some doc →
      navigate doc (get_parsed_paths p) = some node → coerce_string node = none →
      get_json_string j p = none) ∧
    (∀ (doc node : JsonValue), parseJson j = some doc →
      navigate doc (get_parsed_paths p) = some node → coerce_double node = none →
      get_json_double j p = none) := by
  refine ⟨fun hj => ⟨?_, ?_, ?_⟩, fun hinv => ?_, fun doc hj hn => ⟨?_, ?_, ?_⟩,
    fun doc node hj hn hc => ?_, fun doc node hj hn hc => ?_,
    fun doc node hj hn hc => ?_⟩
  · unfold get_json_int
    rw [get_json_object_eq, hj]
    rfl
  · unfold get_json_string
    rw [get_json_object_eq, hj]
    rfl
  · unfold get_json_double
    rw [get_json_object_eq, hj]
    rfl
  · cases hj : parseJson j with
    | none =>
      refine ⟨?_, ?_, ?_⟩ <;>
        first
        | (unfold get_json_int; rw [get_json_object_eq, hj]; rfl)
        | (unfold get_json_string; rw [get_json_object_eq, hj]; rfl)
        | (unfold get_json_double; rw [get_json_object_eq, hj]; rfl)
    | some doc =>
      have hnav := navigate_invalid (get_parsed_paths p) doc hinv
      refine ⟨?_, ?_, ?_⟩
      · unfold get_json_int
        rw [get_json_object_eq, hj]
        show (navigate doc (get_parsed_paths p)).bind coerce_int = none
        rw [hnav]
        rfl
      · unfold get_json_string
        rw [get_json_object_eq, hj]
        show (navigate doc (get_parsed_paths p)).bind coerce_string = none
        rw [hnav]
        rfl
      · unfold get_json_double
        rw [get_json_object_eq, hj]
        show (navigate doc (get_parsed_paths p)).bind coerce_double = none
        rw [hnav]
        rfl
  · unfold get_json_int
    rw [get_json_object_eq, hj]
    show (navigate doc (get_parsed_paths p)).bind coerce_int = none
    rw [hn]
    rfl
  · unfold get_json_string
    rw [get_json_object_eq, hj]
    show (navigate doc (get_parsed_paths p)).bind coerce_string = none
    rw [hn]
    rfl
  · unfold get_json_double
    rw [get_json_object_eq, hj]
    show (navigate doc (get_parsed_paths p)).bind coerce_double = none
    rw [hn]
    rfl
  · unfold get_json_int
    rw [get_json_object_eq, hj]
    show (navigate doc (get_parsed_paths p)).bind coerce_int = none
    rw [hn]
    exact hc
  · unfold get_json_string
    rw [get_json_object_eq, hj]
    show (navigate doc (get_parsed_paths p)).bind coerce_string = none
    rw [hn]
    exact hc
  · unfold get_json_double
    rw [get_json_object_eq, hj]
    show (navigate doc (get_parsed_paths p)).bind coerce_double = none
    rw [hn]
    exact hc

/-- C2 witness: malformed JSON yields the is-null result for all three
entry points, and a type mismatch (a number requested as a string) yields
the is-null result through the string mismatch conjunct. -/
theorem json_extract_null_on_failure_witness :
    (get_json_int "not json" "$.a" = none ∧
     get_json_string "not json" "$.a" = none ∧
     get_json_double "not json" "$.a" = none) ∧
    get_json_string "\x7b\"a\":1\x7d" "$.a" = none :=
  ⟨(json_extract_null_on_failure "not json" "$.a").1 rfl,
   (json_extract_null_on_failure "\x7b\"a\":1\x7d" "$.a").2.2.2.2.1
     (.jobj [("a", .jnum (.int 1))]) (.jnum (.int 1)) rfl rfl rfl⟩

/-- C3: coercion rules — the integer entry point returns a value only when
the resolved node is a JSON number representable as an integer, the string
entry point only when it is a JSON string, and a resolved JSON null node
yields the is-null result for every requested target type. -/
theorem json_coercion_rules :
    (∀ (j p : String) (i : Int), get_json_int j p = some i →
      ∃ doc : JsonValue, parseJson j = some doc ∧
        navigate doc (get_parsed_paths p) = some (.jnum (.int i))) ∧
    (∀ (j p s0 : String), get_json_string j p = some s0 →
      ∃ doc : JsonValue, parseJson j = some doc ∧
        navigate doc (get_parsed_paths p) = some (.jstr s0)) ∧
    (∀ (j p : String) (doc : JsonValue), parseJson j = some doc →
      navigate doc (get_parsed_paths p) = some .jnull →
      get_json_int j p = none ∧ get_json_string j p = none ∧ get_json_double j p = none) := by
  refine ⟨fun j p i h => ?_, fun j p s0 h => ?_, fun j p doc hj hn => ⟨?_, ?_, ?_⟩⟩
  · unfold get_json_int at h
    rw [get_json_object_eq] at h
    cases hp : parseJson j with
    | none =>
      rw [hp] at h
      exact Option.noConfusion h
    | some doc =>
      rw [hp] at h
      have h2 : (navigate doc (get_parsed_paths p)).bind coerce_int = some i := h
      cases hn : navigate doc (get_parsed_paths p) with
      | none =>
        rw [hn] at h2
        exact Option.noConfusion h2
      | some node =>
        rw [hn] at h2
        have h3 : coerce_int node = some i := h2
        cases node with
        | jnum n =>
          cases n with
          | int k =>
            have hk : k = i := Option.some.inj h3
            subst hk
            exact ⟨doc, rfl, hn⟩
          | dbl lit => exact Option.noConfusion h3
        | jnull => exact Option.noConfusion h3
        | jbool b => exact Option.noConfusion h3
        | jstr s1 => exact Option.noConfusion h3
        | jarr es => exact Option.noConfusion h3
        | jobj ms => exact Option.noConfusion h3
  · unfold get_json_string at h
    rw [get_json_object_eq] at h
    cases hp : parseJson j with
    | none =>
      rw [hp] at h
      exact Option.noConfusion h
    | some doc =>
      rw [hp] at h
      have h2 : (navigate doc (get_parsed_paths p)).bind coerce_string = some s0 := h
      cases hn : navigate doc (get_parsed_paths p) with
      | none =>
        rw [hn] at h2
        exact Option.noConfusion h2
      | some node =>
        rw [hn] at h2
        have h3 : coerce_string node = some s0 := h2
        cases node with
        | jstr s1 =>
          have hk : s1 = s0 := Option.some.inj h3
          subst hk
          exact ⟨doc, rfl, hn⟩
        | jnull => exact Option.noConfusion h3
        | jbool b => exact Option.noConfusion h3
        | jnum n => exact Option.noConfusion h3
        | jarr es => exact Option.noConfusion h3
        | jobj ms => exact Option.noConfusion h3
  · unfold get_json_int
    rw [get_json_object_eq, hj]
    show (navigate doc (get_parsed_paths p)).bind coerce_int = none
    rw [hn]
    rfl
  · unfold get_json_string
    rw [get_json_object_eq, hj]
    show (navigate doc (get_parsed_paths p)).bind coerce_string = none
    rw [hn]
    rfl
  · unfold get_json_double
    rw [get_json_object_eq, hj]
    show (navigate doc (get_parsed_paths p)).bind coerce_double = none
    rw [hn]
    rfl

/-- C3 witness: a resolved JSON null node yields the is-null result for
all three requested target types. -/
theorem json_coercion_rules_witness :
    get_json_int "\x7b\"a\":null\x7d" "$.a" = none ∧
    get_json_string "\x7b\"a\":null\x7d" "$.a" = none ∧
    get_json_double "\x7b\"a\":null\x7d" "$.a" = none :=
  json_coercion_rules.2.2 "\x7b\"a\":null\x7d" "$.a" (.jobj [("a", .jnull)]) rfl rfl

/-- C5: every parsed segment is exactly one of an object-key step or an
array-index step (never both a nonempty key and a set index), and a path
containing an invalid segment navigates to not-found on every document —
an invalid path never partially matches. -/
theorem path_segment_invariant :
    (∀ p : String, ∀ seg ∈ get_parsed_paths p, ¬(seg.key ≠ "" ∧ 0 ≤ seg.idx)) ∧
    (∀ (p : String) (doc : JsonValue),
      (∃ seg ∈ get_parsed_paths p, seg.is_valid = false) →
      navigate doc (get_parsed_paths p) = none) := by
  constructor
  · intro p seg hm
    have hshape : seg.key = "" ∨ seg.idx = -1 := by
      unfold get_parsed_paths at hm
      split at hm
      · rcases List.mem_cons.mp hm with h1 | h2
        · right; rw [h1]
        · cases h2
      · split at hm
        · exact parseSteps_shape _ _ seg hm
        · rcases List.mem_cons.mp hm with h1 | h2
          · right; rw [h1]
          · cases h2
    rcases hshape with h1 | h1
    · intro hc
      exact hc.1 h1
    · intro hc
      rw [h1] at hc
      exact absurd hc.2 (by decide)
  · intro p doc h
    exact navigate_invalid _ doc h

/-- C5 witness: a path with an invalid segment (negative index) resolves
to not-found on a concrete document. -/
theorem path_segment_invariant_witness :
    navigate (.jobj [("a", .jarr [.jnum (.int 1)])]) (get_parsed_paths "$.a[-1]") = none :=
  path_segment_invariant.2 "$.a[-1]" (.jobj [("a", .jarr [.jnum (.int 1)])])
    ⟨JsonPath.mk "" (-1) false, by decide, rfl⟩

/-- C7: navigation through an array-index step succeeds only when the
current node is a JSON array and the index lies within bounds; in
particular the out-of-range concrete scenario yields the is-null
result and no out-of-bounds access occurs. -/
theorem array_index_bounds_safety :
    (∀ (doc : JsonValue) (seg : JsonPath) (rest : List JsonPath) (v : JsonValue),
      seg.is_valid = true → 0 ≤ seg.idx →
      navigate doc (seg :: rest) = some v →
      ∃ elems : List JsonValue, doc = .jarr elems ∧ seg.idx.toNat < elems.length) ∧
    get_json_int "\x7b\"a\":[1,2]\x7d" "$.a[5]" = none := by
  constructor
  · intro doc seg rest v hvalid hidx hnav
    simp only [navigate] at hnav
    rw [if_neg (by simp [hvalid]), if_pos hidx] at hnav
    cases doc with
    | jarr elems =>
      cases hg : elems.get? seg.idx.toNat with
      | none =>
        have hnav2 : (match elems.get? seg.idx.toNat with
          | some child => navigate child rest
          | none => (none : Option JsonValue)) = some v := hnav
        rw [hg] at hnav2
        exact Option.noConfusion hnav2
      | some child =>
        exact ⟨elems, rfl, get_some_lt _ _ _ hg⟩
    | jnull => exact Option.noConfusion hnav
    | jbool b => exact Option.noConfusion hnav
    | jnum n => exact Option.noConfusion hnav
    | jstr s => exact Option.noConfusion hnav
    | jobj ms => exact Option.noConfusion hnav
  · rfl

/-- C7 witness: a concrete in-bounds array access certifies the bound. -/
theorem array_index_bounds_safety_witness :
    ∃ elems : List JsonValue, JsonValue.jarr [JsonValue.jnull] = .jarr elems ∧
      (JsonPath.mk "" 0 true).idx.toNat < elems.length :=
  array_index_bounds_safety.1 (.jarr [.jnull]) (JsonPath.mk "" 0 true) [] .jnull rfl
    (by decide) rfl

end Doris
